import Mathlib

/-!
Verification of the RAG security lab trust-verification core: a shallow
embedding of the hash-chained audit log, the lineage record model with
keyed-signature verification, the quarantine evidence store, and the
ingestion pipeline, together with theorems settling the specification
claims about them.

The SHA-256 digest and the HMAC-SHA256 primitive are library calls in the
source; they are modelled as abstract function parameters (named sha and
mac below).  Everything else is translated directly from the source.
-/

/-- Model of a Python value as it appears in this code base: strings,
integers, booleans, None, lists and string-keyed dicts.  Lists and dicts
are encoded by their own cons constructors so that every function on
values is structurally recursive and kernel-computable. -/
inductive PyVal where
  | str (s : String)
  | int (n : Int)
  | bool (b : Bool)
  | noneV
  | listNil
  | listCons (hd tl : PyVal)
  | dictNil
  | dictCons (k : String) (v tl : PyVal)
deriving DecidableEq, Repr

/-- Build a PyVal list from a Lean list of values. -/
def PyVal.ofList : List PyVal → PyVal
  | [] => .listNil
  | v :: vs => .listCons v (PyVal.ofList vs)

/-- Build a PyVal dict from a Lean association list (insertion order). -/
def PyVal.ofDict : List (String × PyVal) → PyVal
  | [] => .dictNil
  | (k, v) :: kvs => .dictCons k v (PyVal.ofDict kvs)

/-- The association list underlying a PyVal dict, or none when the value
is not a dict (mirrors the isinstance dict test). -/
def PyVal.dictPairs : PyVal → Option (List (String × PyVal))
  | .dictNil => some []
  | .dictCons k v tl =>
      match PyVal.dictPairs tl with
      | some l => some ((k, v) :: l)
      | none => none
  | _ => none

/-- Python truthiness of a value, as used by the if tests of
save_evidence_bundle and by the metadata defaulting idiom. -/
def pyTruthy : PyVal → Bool
  | .str s => s ≠ ""
  | .int n => n ≠ 0
  | .bool b => b
  | .noneV => false
  | .listNil => false
  | .listCons _ _ => true
  | .dictNil => false
  | .dictCons _ _ _ => true

/-- Lowercase hexadecimal digit. -/
def hexDigitChar (n : Nat) : Char :=
  if n < 10 then Char.ofNat (48 + n) else Char.ofNat (87 + n)

/-- Four lowercase hex digits, as in the json escape u-sequences. -/
def hex4 (n : Nat) : String :=
  String.mk [hexDigitChar (n / 4096 % 16), hexDigitChar (n / 256 % 16),
             hexDigitChar (n / 16 % 16), hexDigitChar (n % 16)]

/-- Escape of one character following json.dumps with its default
ensure_ascii=True setting, as used for the hashed and signed encodings. -/
def escChar (c : Char) : String :=
  let n := c.toNat
  if n = 34 then "\\\""
  else if n = 92 then "\\\\"
  else if n = 10 then "\\n"
  else if n = 9 then "\\t"
  else if n = 13 then "\\r"
  else if n = 8 then "\\b"
  else if n = 12 then "\\f"
  else if n < 32 then "\\u" ++ hex4 n
  else if n < 128 then String.singleton c
  else if n < 65536 then "\\u" ++ hex4 n
  else "\\u" ++ hex4 (55296 + (n - 65536) / 1024) ++
       "\\u" ++ hex4 (56320 + (n - 65536) % 1024)

/-- json string body escape. -/
def jsonEscape (s : String) : String :=
  String.join (s.data.map escChar)

/-- A quoted json string. -/
def jsonQuote (s : String) : String :=
  "\"" ++ jsonEscape s ++ "\""

/-- Code-point lexicographic order on character lists, the order Python
uses to compare strings when sorting keys. -/
def charListLt : List Char → List Char → Bool
  | [], [] => false
  | [], _ :: _ => true
  | _ :: _, [] => false
  | a :: as, b :: bs =>
      if a.toNat < b.toNat then true
      else if b.toNat < a.toNat then false
      else charListLt as bs

/-- Code-point lexicographic order on strings. -/
def strLt (a b : String) : Bool := charListLt a.data b.data

/-- Insert one rendered key-value pair into a key-sorted list. -/
def insertByKey (p : String × String) : List (String × String) → List (String × String)
  | [] => [p]
  | q :: qs => if strLt p.1 q.1 then p :: q :: qs else q :: insertByKey p qs

/-- Sort rendered key-value pairs by key, the sort_keys=True order. -/
def sortByKey : List (String × String) → List (String × String)
  | [] => []
  | p :: ps => insertByKey p (sortByKey ps)

/-- Render a json object from rendered pairs, keys sorted, with the
default json.dumps separators. -/
def renderObj (ps : List (String × String)) : String :=
  "\x7b" ++ String.intercalate ", "
    ((sortByKey ps).map (fun p => jsonQuote p.1 ++ ": " ++ p.2)) ++ "\x7d"

/-- Structural worker for the deterministic encoding: the first component
is the rendering of the value, the second collects the renderings of the
elements of a list spine, the third the rendered pairs of a dict spine. -/
def dumpAux : PyVal → String × List String × List (String × String)
  | .str s => (jsonQuote s, [], [])
  | .int n => (toString n, [], [])
  | .bool b => (if b then "true" else "false", [], [])
  | .noneV => ("null", [], [])
  | .listNil => ("[]", [], [])
  | .listCons v tl =>
      let es := (dumpAux v).1 :: (dumpAux tl).2.1
      ("[" ++ String.intercalate ", " es ++ "]", es, [])
  | .dictNil => ("\x7b\x7d", [], [])
  | .dictCons k v tl =>
      let ps := (k, (dumpAux v).1) :: (dumpAux tl).2.2
      (renderObj ps, [], ps)

/-- Deterministic sorted-key json encoding of a value: the model of
json.dumps(x, sort_keys=True) used by the hashing and signing code. -/
def PyVal.dump (v : PyVal) : String := (dumpAux v).1

theorem sanity_dump_example :
    PyVal.dump (PyVal.ofDict [("b", PyVal.int 1), ("a", PyVal.str "x")]) =
      "\x7b\"a\": \"x\", \"b\": 1\x7d" := by decide

/-! ## Lineage record model (security/lineage/lineage_chain.py) -/

/-- One version of a document provenance claim.  The dataclass performs no
type validation, so every field holds an arbitrary Python value; signature
defaults to None. -/
structure LineageRecord where
  document_id : PyVal
  version : PyVal
  content_hash : PyVal
  prev_hash : PyVal
  created_at : PyVal
  author : PyVal
  source : PyVal
  signature : PyVal := PyVal.noneV
deriving DecidableEq, Repr

/-- The deterministic signed encoding of a record: every field except
signature, dumped with sorted keys. -/
def LineageRecord.core_payload_bytes (r : LineageRecord) : String :=
  PyVal.dump (PyVal.ofDict
    [("document_id", r.document_id), ("version", r.version),
     ("content_hash", r.content_hash), ("prev_hash", r.prev_hash),
     ("created_at", r.created_at), ("author", r.author),
     ("source", r.source)])

/-- The record's attribute dict in field declaration order, as produced
by the record's double-underscore dict attribute. -/
def LineageRecord.toDict (r : LineageRecord) : PyVal :=
  PyVal.ofDict
    [("document_id", r.document_id), ("version", r.version),
     ("content_hash", r.content_hash), ("prev_hash", r.prev_hash),
     ("created_at", r.created_at), ("author", r.author),
     ("source", r.source), ("signature", r.signature)]

/-! ## Signer (security/lineage/signer.py)

The HMAC-SHA256 primitive is the abstract parameter mac, taking the key
and the content to the hex digest. -/

/-- HMACSigner.sign: hex-encoded keyed MAC of the content. -/
def signer_sign (mac : String → String → String) (key content : String) : String :=
  mac key content

/-- HMACSigner.verify: recompute and compare (compare_digest is equality
of the two hex strings). -/
def signer_verify (mac : String → String → String) (key content signature2 : String) : Bool :=
  signer_sign mac key content == signature2

/-! ## Verifier (security/lineage/verify.py)

The SHA-256 hex digest of a content string is the abstract parameter sha. -/

/-- LineageRecord.compute_content_hash: SHA-256 hex digest of the raw
content. -/
def compute_content_hash (sha : String → String) (content : String) : String :=
  sha content

/-- LineageVerifier.verify_content_hash: recomputed digest compared to the
stored content_hash field (a string compared to an arbitrary value is
unequal unless that value is the same string). -/
def verify_content_hash (sha : String → String) (r : LineageRecord) (content : String) : Bool :=
  PyVal.str (compute_content_hash sha content) == r.content_hash

/-- LineageVerifier.verify_signature: false when signature is None, else
the signer check over the core payload.  A non-None non-string signature
is modelled as a failed verification (that path raises in Python and is
unreachable under the claims considered here). -/
def verify_signature (mac : String → String → String) (key : String) (r : LineageRecord) : Bool :=
  match r.signature with
  | PyVal.noneV => false
  | PyVal.str s => signer_verify mac key r.core_payload_bytes s
  | _ => false

/-- LineageVerifier.verify_record: fail-fast full verification. -/
def verify_record (sha : String → String) (mac : String → String → String)
    (key : String) (r : LineageRecord) (content : String) : Bool × String :=
  if verify_content_hash sha r content then
    if verify_signature mac key r then (true, "Lineage and integrity verified.")
    else (false, "Invalid signature.")
  else (false, "Content hash mismatch.")

/-! ## Audit log (security/audit/audit_log.py) -/

/-- One append-only audit record (the AuditLogEntry dataclass). -/
structure AuditLogEntry where
  index : Nat
  timestamp : String
  event_type : String
  document_id : String
  stage : String
  status : String
  reason : String
  details : PyVal
  prev_hash : Option String
  entry_hash : Option String := none
deriving DecidableEq, Repr

/-- A default entry, used only as the out-of-range value of getD. -/
def dummyEntry : AuditLogEntry :=
  { index := 0, timestamp := "", event_type := "", document_id := "",
    stage := "", status := "", reason := "", details := PyVal.noneV,
    prev_hash := none }

/-- An optional string as a Python value (None or the string itself). -/
def optStrVal : Option String → PyVal
  | none => PyVal.noneV
  | some s => PyVal.str s

/-- asdict of an entry: its fields as a dict in declaration order (the
dump sorts the keys). -/
def entry_asdict (e : AuditLogEntry) : PyVal :=
  PyVal.ofDict
    [("index", PyVal.int (Int.ofNat e.index)), ("timestamp", PyVal.str e.timestamp),
     ("event_type", PyVal.str e.event_type), ("document_id", PyVal.str e.document_id),
     ("stage", PyVal.str e.stage), ("status", PyVal.str e.status),
     ("reason", PyVal.str e.reason), ("details", e.details),
     ("prev_hash", optStrVal e.prev_hash), ("entry_hash", optStrVal e.entry_hash)]

/-- AuditLog._compute_entry_hash: SHA-256 over the deterministic
sorted-key json encoding of the entry dict. -/
def compute_entry_hash (sha : String → String) (d : PyVal) : String :=
  sha (PyVal.dump d)

/-- The mutable state of one AuditLog plus its durable file: last chain
hash, entry counter, and the appended entries in file order. -/
structure AuditLogState where
  lastHash : Option String := none
  counter : Nat := 0
  file : List AuditLogEntry := []
deriving DecidableEq, Repr

/-- A freshly constructed AuditLog with an empty durable log. -/
def AuditLog.fresh : AuditLogState := {}

/-- The caller-supplied arguments of one write_event call; ts is the
wall-clock timestamp the call reads. -/
structure WriteArgs where
  ts : String
  event_type : String
  document_id : String
  stage : String
  status : String
  reason : String
  details : PyVal
deriving DecidableEq, Repr

/-- The finalized entry a write_event call builds from state s: prev_hash
is the current chain head, the index the current counter, and entry_hash
the digest of the entry encoded with the hash field still None. -/
def entryOf (sha : String → String) (a : WriteArgs) (s : AuditLogState) : AuditLogEntry :=
  let e0 : AuditLogEntry :=
    { index := s.counter, timestamp := a.ts, event_type := a.event_type,
      document_id := a.document_id, stage := a.stage, status := a.status,
      reason := a.reason, details := a.details, prev_hash := s.lastHash,
      entry_hash := none }
  { e0 with entry_hash := some (compute_entry_hash sha (entry_asdict e0)) }

/-- AuditLog.write_event with the durable append made explicit: the chain
head and counter are updated first, then the encoded line is appended;
appendOk says whether that append succeeds (an exception there propagates
after the in-memory update already happened).  Returns the state as left
by the call together with the success flag. -/
def write_event_app (sha : String → String) (a : WriteArgs) (appendOk : Bool)
    (s : AuditLogState) : AuditLogState × Bool :=
  let e := entryOf sha a s
  ({ lastHash := e.entry_hash, counter := s.counter + 1,
     file := if appendOk then s.file ++ [e] else s.file }, appendOk)

/-- AuditLog.write_event on the non-failing path. -/
def write_event (sha : String → String) (a : WriteArgs) (s : AuditLogState) : AuditLogState :=
  (write_event_app sha a true s).1

/-- A sequence of write_event calls. -/
def run_log (sha : String → String) (l : List WriteArgs) (s : AuditLogState) : AuditLogState :=
  l.foldl (fun s2 a => write_event sha a s2) s

/-! ## Quarantine store (security/quarantine/quarantine_manager.py)

The UTC timestamp read by _bundle_path is the abstract parameter qts; the
configured quarantine directory is qdir. -/

/-- document_id with every space replaced by an underscore. -/
def sanitize_id (did : String) : String :=
  String.mk (did.data.map (fun c => if c.toNat = 32 then Char.ofNat 95 else c))

/-- QuarantineManager._bundle_path: quarantine root, timestamp, sanitized
document id. -/
def bundle_path (qdir qts did : String) : String :=
  qdir ++ "/" ++ qts ++ "_" ++ sanitize_id did

/-- One optional artifact file: written only when the input is supplied
and truthy (the source guards each write with a plain if on the value). -/
def optArtifact (name : String) : Option PyVal → List (String × PyVal)
  | some v => if pyTruthy v then [(name, v)] else []
  | none => []

/-- QuarantineManager.save_evidence_bundle: returns the bundle path and
the files written inside it (file name paired with the stored data). -/
def save_evidence_bundle (qdir qts document_id content reason : String)
    (lineage_record detection_scores metadata : Option PyVal) :
    String × List (String × PyVal) :=
  (bundle_path qdir qts document_id,
   [("content.txt", PyVal.str content), ("reason.txt", PyVal.str reason)]
     ++ optArtifact "lineage_record.json" lineage_record
     ++ optArtifact "detection_scores.json" detection_scores
     ++ optArtifact "metadata.json" metadata)

/-! ## Pipeline (security/pipeline/rag_security_pipeline.py) -/

/-- The caller-supplied lineage input: either an actual LineageRecord
object or a raw Python value (dict, string, list, number, ...). -/
inductive LineageInput where
  | record (r : LineageRecord)
  | raw (v : PyVal)
deriving DecidableEq, Repr

/-- The raw input as a Python value (used for the raw_lineage detail). -/
def LineageInput.toVal : LineageInput → PyVal
  | .record r => r.toDict
  | .raw v => v

/-- The constructor parameter names of LineageRecord. -/
def lineage_field_names : List String :=
  ["document_id", "version", "content_hash", "prev_hash",
   "created_at", "author", "source", "signature"]

/-- The parameters without a default value. -/
def lineage_required_names : List String :=
  ["document_id", "version", "content_hash", "prev_hash",
   "created_at", "author", "source"]

/-- Whether keyword expansion of the dict into the constructor succeeds:
no unknown key and every required parameter present.  Value types are
never inspected. -/
def kwargs_ok (d : List (String × PyVal)) : Bool :=
  (d.map Prod.fst).all (fun k => lineage_field_names.contains k) &&
    lineage_required_names.all (fun k => (d.map Prod.fst).contains k)

/-- The record built from a key-compatible dict: each field is the value
supplied for it, signature defaulting to None. -/
def record_of_dict (d : List (String × PyVal)) : LineageRecord :=
  { document_id := (d.lookup "document_id").getD PyVal.noneV,
    version := (d.lookup "version").getD PyVal.noneV,
    content_hash := (d.lookup "content_hash").getD PyVal.noneV,
    prev_hash := (d.lookup "prev_hash").getD PyVal.noneV,
    created_at := (d.lookup "created_at").getD PyVal.noneV,
    author := (d.lookup "author").getD PyVal.noneV,
    source := (d.lookup "source").getD PyVal.noneV,
    signature := (d.lookup "signature").getD PyVal.noneV }

/-- LineageRecord(**d) wrapped in the try, returning None on TypeError. -/
def coerce_lineage_dict (d : List (String × PyVal)) : Option LineageRecord :=
  if kwargs_ok d then some (record_of_dict d) else none

/-- RAGSecurityPipeline._normalize_lineage_record. -/
def normalize_lineage_record : Option LineageInput → Option LineageRecord
  | none => none
  | some (LineageInput.record r) => some r
  | some (LineageInput.raw v) =>
      match PyVal.dictPairs v with
      | some d => coerce_lineage_dict d
      | none => none

/-- The verdict dict returned by process_document. -/
structure Verdict where
  status : String
  reason : String
  bundle_path : Option String
  semantic_scores : Option PyVal
deriving DecidableEq, Repr

/-- The scorer collaborator's verdict: the boolean the pipeline branches
on, plus the full score dict it logs and stores. -/
structure ScanResult where
  is_suspicious : Bool
  scores : PyVal
deriving DecidableEq, Repr

/-- The arguments of one QuarantineManager.save_evidence_bundle call
issued by the pipeline. -/
structure QuarantineCall where
  document_id : String
  content : String
  reason : String
  lineage_record : Option PyVal
  detection_scores : Option PyVal
  metadata : Option PyVal
deriving DecidableEq, Repr

/-- A default call, used only as the out-of-range value of getD. -/
def dummyCall : QuarantineCall :=
  { document_id := "", content := "", reason := "", lineage_record := none,
    detection_scores := none, metadata := none }

/-- The metadata-or-default idiom: Python or returns the default when the
metadata is absent or an empty (falsy) dict. -/
def py_or (m : Option (List (String × PyVal))) (d : List (String × PyVal)) :
    List (String × PyVal) :=
  match m with
  | none => d
  | some l => if l.isEmpty then d else l

/-- STEP 2 and the terminal states of process_document: semantic scan,
then quarantine or accept.  normalized is the record surviving the
lineage stages (None when no lineage claim was supplied). -/
def process_semantic (sha : String → String) (detect : String → ScanResult)
    (qdir qts ts document_id content : String)
    (metadata : Option (List (String × PyVal)))
    (normalized : Option LineageRecord) (s : AuditLogState) :
    Verdict × AuditLogState × List QuarantineCall :=
  let res := detect content
  if res.is_suspicious then
    let s2 := write_event sha
      { ts := ts, event_type := "semantic_fail", document_id := document_id,
        stage := "semantic", status := "quarantined",
        reason := "Semantic anomaly detected",
        details := PyVal.ofDict [("scores", res.scores)] } s
    let q : QuarantineCall :=
      { document_id := document_id, content := content,
        reason := "Semantic anomaly detected.",
        lineage_record := normalized.map LineageRecord.toDict,
        detection_scores := some res.scores,
        metadata := some (PyVal.ofDict (py_or metadata [("stage", PyVal.str "semantic")])) }
    let bp := (save_evidence_bundle qdir qts q.document_id q.content q.reason
      q.lineage_record q.detection_scores q.metadata).1
    ({ status := "quarantined", reason := "Semantic anomaly.",
       bundle_path := some bp, semantic_scores := some res.scores }, s2, [q])
  else
    let s2 := write_event sha
      { ts := ts, event_type := "semantic_ok", document_id := document_id,
        stage := "semantic", status := "accepted", reason := "Semantic clean",
        details := PyVal.ofDict [("scores", res.scores)] } s
    let s3 := write_event sha
      { ts := ts, event_type := "accept", document_id := document_id,
        stage := "pipeline_end", status := "accepted",
        reason := "Document fully clean",
        details := PyVal.ofDict [("scores", res.scores)] } s2
    ({ status := "accepted", reason := "Clean document.",
       bundle_path := none, semantic_scores := some res.scores }, s3, [])

/-- STEP 1 of process_document: lineage verification when a normalized
record exists, else straight to the semantic stage. -/
def process_after_normalize (sha : String → String)
    (mac : String → String → String) (key : String)
    (detect : String → ScanResult) (qdir qts ts document_id content : String)
    (metadata : Option (List (String × PyVal)))
    (normalized : Option LineageRecord) (s : AuditLogState) :
    Verdict × AuditLogState × List QuarantineCall :=
  match normalized with
  | some r =>
    let vr := verify_record sha mac key r content
    if vr.1 then
      let s2 := write_event sha
        { ts := ts, event_type := "lineage_ok", document_id := document_id,
          stage := "lineage", status := "accepted", reason := "Lineage valid",
          details := PyVal.ofDict [("version", r.version)] } s
      process_semantic sha detect qdir qts ts document_id content metadata (some r) s2
    else
      let s2 := write_event sha
        { ts := ts, event_type := "lineage_fail", document_id := document_id,
          stage := "lineage", status := "quarantined", reason := vr.2,
          details := PyVal.ofDict [("lineage_record", r.toDict)] } s
      let q : QuarantineCall :=
        { document_id := document_id, content := content,
          reason := "Lineage/Integrity failed: " ++ vr.2,
          lineage_record := some r.toDict, detection_scores := none,
          metadata := some (PyVal.ofDict (py_or metadata [("stage", PyVal.str "lineage")])) }
      let bp := (save_evidence_bundle qdir qts q.document_id q.content q.reason
        q.lineage_record q.detection_scores q.metadata).1
      ({ status := "quarantined", reason := vr.2,
         bundle_path := some bp, semantic_scores := none }, s2, [q])
  | none => process_semantic sha detect qdir qts ts document_id content metadata none s

/-- RAGSecurityPipeline.process_document: the ingest_start event, lineage
normalization with its quarantine terminal, then the later stages.
Returns the verdict, the audit state as left by the call, and the
quarantine-store calls issued. -/
def process_document (sha : String → String) (mac : String → String → String)
    (key : String) (detect : String → ScanResult)
    (qdir qts ts document_id content : String)
    (lineage : Option LineageInput) (metadata : Option (List (String × PyVal)))
    (s0 : AuditLogState) : Verdict × AuditLogState × List QuarantineCall :=
  let s1 := write_event sha
    { ts := ts, event_type := "ingest_start", document_id := document_id,
      stage := "start", status := "processing",
      reason := "Document ingest started",
      details := PyVal.ofDict [("metadata", PyVal.ofDict (py_or metadata []))] } s0
  match lineage with
  | some li =>
    match normalize_lineage_record (some li) with
    | none =>
      let s2 := write_event sha
        { ts := ts, event_type := "lineage_fail", document_id := document_id,
          stage := "lineage_deserialization", status := "quarantined",
          reason := "Invalid lineage structure",
          details := PyVal.ofDict [("raw_lineage", li.toVal)] } s1
      let q : QuarantineCall :=
        { document_id := document_id, content := content,
          reason := "Lineage record deserialization failure.",
          lineage_record := some li.toVal, detection_scores := none,
          metadata := some (PyVal.ofDict (py_or metadata
            [("stage", PyVal.str "lineage_deserialization")])) }
      let bp := (save_evidence_bundle qdir qts q.document_id q.content q.reason
        q.lineage_record q.detection_scores q.metadata).1
      ({ status := "quarantined", reason := "Invalid lineage record structure.",
         bundle_path := some bp, semantic_scores := none }, s2, [q])
    | some r =>
      process_after_normalize sha mac key detect qdir qts ts document_id content
        metadata (some r) s1
  | none =>
    process_after_normalize sha mac key detect qdir qts ts document_id content
      metadata none s1

/-- The entries a run appended to the audit file after state s0. -/
def events_between (s0 s1 : AuditLogState) : List AuditLogEntry :=
  s1.file.drop s0.file.length

/-- The stage signature of an audit entry. -/
def event_sig (e : AuditLogEntry) : String × String :=
  (e.event_type, e.stage)

/-! ## Concrete instantiations used by witnesses and counterexamples -/

/-- A concrete stand-in for the SHA-256 hex digest. -/
def shaW : String → String := fun s => "#" ++ s

/-- A concrete stand-in for the keyed HMAC-SHA256 hex digest. -/
def macW : String → String → String := fun k c => "mac-" ++ k ++ "-" ++ c

/-- A scorer that finds nothing suspicious. -/
def detectW : String → ScanResult := fun _ =>
  { is_suspicious := false,
    scores := PyVal.ofDict [("total_score", PyVal.int 0),
                            ("is_suspicious", PyVal.bool false)] }

/-- A scorer that flags everything as suspicious. -/
def detectSusW : String → ScanResult := fun _ =>
  { is_suspicious := true,
    scores := PyVal.ofDict [("total_score", PyVal.int 1),
                            ("is_suspicious", PyVal.bool true)] }

/-- Two concrete write_event calls. -/
def wargs2 : List WriteArgs :=
  [{ ts := "t1", event_type := "ev1", document_id := "d1", stage := "s1",
     status := "ok", reason := "r1", details := PyVal.dictNil },
   { ts := "t2", event_type := "ev2", document_id := "d2", stage := "s2",
     status := "ok", reason := "r2", details := PyVal.dictNil }]

/-- One concrete write_event call. -/
def wargs1 : WriteArgs :=
  { ts := "t1", event_type := "ev1", document_id := "d1", stage := "s1",
    status := "ok", reason := "r1", details := PyVal.dictNil }

/-- A malformed lineage input: a dict missing required fields. -/
def liBad : LineageInput :=
  LineageInput.raw (PyVal.ofDict [("document_id", PyVal.str "d")])

/-- A key-complete lineage dict whose version is a string, not an int. -/
def dGood : List (String × PyVal) :=
  [("document_id", PyVal.str "doc"), ("version", PyVal.str "two"),
   ("content_hash", PyVal.str "#c"), ("prev_hash", PyVal.noneV),
   ("created_at", PyVal.str "2025-01-01T00:00:00Z"),
   ("author", PyVal.str "alice"), ("source", PyVal.str "manual-review")]

/-- A record whose stored content hash cannot match any content. -/
def rBad : LineageRecord :=
  { document_id := PyVal.str "doc", version := PyVal.int 1,
    content_hash := PyVal.str "wrong", prev_hash := PyVal.noneV,
    created_at := PyVal.str "2025-01-01T00:00:00Z",
    author := PyVal.str "alice", source := PyVal.str "manual-review" }

/-- A record matching content "c" under shaW, not yet signed. -/
def rGood : LineageRecord :=
  { document_id := PyVal.str "doc", version := PyVal.int 1,
    content_hash := PyVal.str "#c", prev_hash := PyVal.noneV,
    created_at := PyVal.str "2025-01-01T00:00:00Z",
    author := PyVal.str "alice", source := PyVal.str "manual-review" }

/-! ## List helpers -/

theorem list_getD_append_length (l : List AuditLogEntry) (x d : AuditLogEntry) :
    (l ++ [x]).getD l.length d = x := by
  induction l with
  | nil => rfl
  | cons h t ih => simp [ih]

theorem list_drop_len_append (l t : List AuditLogEntry) :
    (l ++ t).drop l.length = t := by
  induction l with
  | nil => rfl
  | cons h t2 ih => simp [ih]

/-! ## Audit chain invariant -/

/-- The entries starting at expected previous hash ph and index i form a
hash chain with consecutive indices. -/
def chain_ok : Option String → Nat → List AuditLogEntry → Prop
  | _, _, [] => True
  | ph, i, e :: es => e.prev_hash = ph ∧ e.index = i ∧ chain_ok e.entry_hash (i + 1) es

/-- The chain head after the listed entries, starting from head ph. -/
def last_hash_of : List AuditLogEntry → Option String → Option String
  | [], ph => ph
  | e :: es, _ => last_hash_of es e.entry_hash

/-- The write_event invariant: counter counts the entries, the file is a
chain from the empty head, and lastHash is the head after the file. -/
def log_wf (s : AuditLogState) : Prop :=
  s.counter = s.file.length ∧ chain_ok none 0 s.file ∧
    s.lastHash = last_hash_of s.file none

theorem last_hash_of_append (l : List AuditLogEntry) (e : AuditLogEntry)
    (ph : Option String) : last_hash_of (l ++ [e]) ph = e.entry_hash := by
  induction l generalizing ph with
  | nil => rfl
  | cons h t ih => simpa [last_hash_of] using ih h.entry_hash

theorem chain_ok_snoc (l : List AuditLogEntry) (e : AuditLogEntry)
    (ph : Option String) (i : Nat) (hc : chain_ok ph i l)
    (hp : e.prev_hash = last_hash_of l ph) (hi : e.index = i + l.length) :
    chain_ok ph i (l ++ [e]) := by
  induction l generalizing ph i with
  | nil => exact ⟨hp, by simpa using hi, trivial⟩
  | cons h t ih =>
      obtain ⟨h1, h2, h3⟩ := hc
      exact ⟨h1, h2, ih h.entry_hash (i + 1) h3 hp (by simp [hi]; omega)⟩

theorem log_wf_fresh : log_wf AuditLog.fresh := ⟨rfl, trivial, rfl⟩

theorem log_wf_write (sha : String → String) (a : WriteArgs) (s : AuditLogState)
    (h : log_wf s) : log_wf (write_event sha a s) := by
  obtain ⟨h1, h2, h3⟩ := h
  refine ⟨?_, ?_, ?_⟩
  · simp [write_event, write_event_app, h1]
  · exact chain_ok_snoc s.file (entryOf sha a s) none 0 h2
      (by simp [entryOf, h3]) (by simp [entryOf, h1])
  · simp [write_event, write_event_app, last_hash_of_append, entryOf]

theorem log_wf_run (sha : String → String) (l : List WriteArgs) (s : AuditLogState)
    (h : log_wf s) : log_wf (run_log sha l s) := by
  induction l generalizing s with
  | nil => exact h
  | cons a t ih => exact ih (write_event sha a s) (log_wf_write sha a s h)

theorem run_log_file_length (sha : String → String) (l : List WriteArgs)
    (s : AuditLogState) : (run_log sha l s).file.length = s.file.length + l.length := by
  induction l generalizing s with
  | nil => rfl
  | cons a t ih =>
      have := ih (write_event sha a s)
      simp only [run_log, List.foldl] at this ⊢
      rw [this]
      simp [write_event, write_event_app]
      omega

theorem chain_ok_getD (l : List AuditLogEntry) (ph : Option String) (i0 : Nat)
    (hc : chain_ok ph i0 l) :
    ∀ j, (j < l.length → (l.getD j dummyEntry).index = i0 + j) ∧
      (j = 0 → 0 < l.length → (l.getD 0 dummyEntry).prev_hash = ph) ∧
      (j + 1 < l.length →
        (l.getD (j + 1) dummyEntry).prev_hash = (l.getD j dummyEntry).entry_hash) := by
  induction l generalizing ph i0 with
  | nil => intro j; exact ⟨fun h => absurd h (by simp), fun _ h => absurd h (by simp), fun h => absurd h (by simp)⟩
  | cons e es ih =>
      obtain ⟨h1, h2, h3⟩ := hc
      intro j
      refine ⟨?_, ?_, ?_⟩
      · intro hj
        cases j with
        | zero => simpa using h2
        | succ j2 =>
            have := (ih e.entry_hash (i0 + 1) h3 j2).1 (by simpa using hj)
            simp only [List.getD, List.get?] at this ⊢
            simp at this ⊢
            omega
      · intro _ _
        simpa using h1
      · intro hj
        cases j with
        | zero =>
            cases es with
            | nil => simp at hj
            | cons e2 es2 => simpa using h3.1.symm ▸ (by simp [h3.1] : (e2.prev_hash = e.entry_hash))
        | succ j2 =>
            have := (ih e.entry_hash (i0 + 1) h3 j2).2.2 (by simpa using hj)
            simpa using this

/-! ## Claim theorems: audit log -/

/-- Claim C1: for any sequence of N write_event calls on a freshly
constructed AuditLog, the produced entries form a hash chain: entry 0 has
prev_hash absent, every later entry's prev_hash equals the previous
entry's entry_hash, and entry i's index is i, 0-based and assigned by the
log at write time. -/
theorem audit_chain_integrity (sha : String → String) (l : List WriteArgs) :
    (run_log sha l AuditLog.fresh).file.length = l.length ∧
    (0 < (run_log sha l AuditLog.fresh).file.length →
      ((run_log sha l AuditLog.fresh).file.getD 0 dummyEntry).prev_hash = none) ∧
    (∀ j, j < (run_log sha l AuditLog.fresh).file.length →
      ((run_log sha l AuditLog.fresh).file.getD j dummyEntry).index = j) ∧
    (∀ j, j + 1 < (run_log sha l AuditLog.fresh).file.length →
      ((run_log sha l AuditLog.fresh).file.getD (j + 1) dummyEntry).prev_hash =
        ((run_log sha l AuditLog.fresh).file.getD j dummyEntry).entry_hash) := by
  obtain ⟨h1, h2, h3⟩ := log_wf_run sha l AuditLog.fresh log_wf_fresh
  have hlen := run_log_file_length sha l AuditLog.fresh
  refine ⟨by simpa [AuditLog.fresh] using hlen, ?_, ?_, ?_⟩
  · intro hpos
    exact (chain_ok_getD (run_log sha l AuditLog.fresh).file none 0 h2 0).2.1 rfl hpos
  · intro j hj
    have := (chain_ok_getD (run_log sha l AuditLog.fresh).file none 0 h2 j).1 hj
    simpa using this
  · intro j hj
    exact (chain_ok_getD (run_log sha l AuditLog.fresh).file none 0 h2 j).2.2 hj

/-- Witness for C1: two concrete calls, checked via the theorem. -/
theorem audit_chain_integrity_witness :
    (run_log shaW wargs2 AuditLog.fresh).file.length = 2 ∧
    ((run_log shaW wargs2 AuditLog.fresh).file.getD 0 dummyEntry).prev_hash = none ∧
    ((run_log shaW wargs2 AuditLog.fresh).file.getD 1 dummyEntry).prev_hash =
      ((run_log shaW wargs2 AuditLog.fresh).file.getD 0 dummyEntry).entry_hash ∧
    ((run_log shaW wargs2 AuditLog.fresh).file.getD 1 dummyEntry).index = 1 := by
  have h := audit_chain_integrity shaW wargs2
  have hl : (run_log shaW wargs2 AuditLog.fresh).file.length = 2 :=
    h.1.trans (show wargs2.length = 2 from rfl)
  exact ⟨hl, h.2.1 (by rw [hl]; decide), h.2.2.2 0 (by rw [hl]; decide),
    h.2.2.1 1 (by rw [hl]; decide)⟩

/-- Claim C2: the stored entry_hash of every written entry equals the
digest of the entry's deterministic sorted-key encoding in which the
entry_hash field is present but None; recomputing the hash that way over
the stored entry reproduces it. -/
theorem audit_entry_hash_recompute (sha : String → String) (a : WriteArgs)
    (s : AuditLogState) :
    ((write_event sha a s).file.getD s.file.length dummyEntry).entry_hash =
      some (compute_entry_hash sha (entry_asdict
        { (write_event sha a s).file.getD s.file.length dummyEntry with
            entry_hash := none })) := by
  have hfile : (write_event sha a s).file = s.file ++ [entryOf sha a s] := rfl
  rw [hfile, list_getD_append_length]
  rfl

/-- Counterexample for C4: on a fresh log, a write_event whose durable
append fails still leaves the chain head and the counter updated, while
the durable file is unchanged — the in-memory chain state is not left
unchanged as claimed. -/
theorem write_event_failed_append_counterexample :
    (write_event_app shaW wargs1 false AuditLog.fresh).1.lastHash ≠
      AuditLog.fresh.lastHash ∧
    (write_event_app shaW wargs1 false AuditLog.fresh).1.counter =
      AuditLog.fresh.counter + 1 ∧
    (write_event_app shaW wargs1 false AuditLog.fresh).1.file =
      AuditLog.fresh.file := by
  refine ⟨by decide, rfl, rfl⟩

/-- Amended C4: write_event takes prev_hash from last_hash, encodes and
hashes the entry, then updates last_hash and the counter before the
durable append; a failed append therefore leaves the in-memory chain
state exactly as a successful call would, with no line appended. -/
theorem write_event_updates_chain_before_append (sha : String → String)
    (a : WriteArgs) (s : AuditLogState) (ok : Bool) :
    (write_event_app sha a ok s).1.lastHash = (entryOf sha a s).entry_hash ∧
    (write_event_app sha a ok s).1.counter = s.counter + 1 ∧
    (write_event_app sha a ok s).2 = ok ∧
    (write_event_app sha a false s).1.file = s.file ∧
    (write_event_app sha a true s).1.file = s.file ++ [entryOf sha a s] ∧
    (entryOf sha a s).prev_hash = s.lastHash ∧
    (entryOf sha a s).index = s.counter ∧
    (entryOf sha a s).entry_hash = some (compute_entry_hash sha
      (entry_asdict { entryOf sha a s with entry_hash := none })) :=
  ⟨rfl, rfl, rfl, rfl, rfl, rfl, rfl, rfl⟩

/-! ## Claim theorems: verifier and signer -/

theorem core_payload_bytes_set_signature (r : LineageRecord) (x : PyVal) :
    LineageRecord.core_payload_bytes { r with signature := x } =
      LineageRecord.core_payload_bytes r := rfl

/-- Claim C3: verify_record fails fast in a fixed order — a content-hash
mismatch yields (false, "Content hash mismatch.") without consulting the
signature (the result does not depend on the MAC), a matching content
hash with a failing or absent signature yields (false, "Invalid
signature."), and both checks passing yields (true, "Lineage and
integrity verified."). -/
theorem verify_record_ordering (sha : String → String)
    (mac mac2 : String → String → String) (key : String)
    (r : LineageRecord) (content : String) :
    (verify_content_hash sha r content = false →
      verify_record sha mac key r content = (false, "Content hash mismatch.") ∧
      verify_record sha mac2 key r content = verify_record sha mac key r content) ∧
    (verify_content_hash sha r content = true →
      verify_signature mac key r = false →
      verify_record sha mac key r content = (false, "Invalid signature.")) ∧
    (verify_content_hash sha r content = true →
      verify_signature mac key r = true →
      verify_record sha mac key r content = (true, "Lineage and integrity verified.")) ∧
    (r.signature = PyVal.noneV → verify_signature mac key r = false) := by
  refine ⟨?_, ?_, ?_, ?_⟩
  · intro h
    constructor <;> simp [verify_record, h]
  · intro h1 h2
    simp [verify_record, h1, h2]
  · intro h1 h2
    simp [verify_record, h1, h2]
  · intro h
    simp [verify_signature, h]

/-- Witness for C3: a wrong stored hash reports the content reason, and a
matching hash with an absent signature reports the signature reason. -/
theorem verify_record_ordering_witness :
    verify_record shaW macW "K" rBad "c" = (false, "Content hash mismatch.") ∧
    verify_record shaW macW "K" rGood "c" = (false, "Invalid signature.") := by
  have h1 := (verify_record_ordering shaW macW macW "K" rBad "c").1 (by decide)
  have h2 := (verify_record_ordering shaW macW macW "K" rGood "c").2.1
    (by decide) (by decide)
  exact ⟨h1.1, h2⟩

/-- Claim C7: signing the core payload and attaching the result makes
verify_signature true under the same key; verify_signature is false when
the signature is absent; any change to the attached signature string
makes it false; and a change to the core payload makes it false whenever
the MACs of the two payloads differ (the collision-freeness of
HMAC-SHA256 at this pair, which is where the cryptographic assumption
lives). -/
theorem signature_roundtrip (mac : String → String → String) (key : String)
    (r r2 : LineageRecord) (s s2 : String) :
    verify_signature mac key
      { r with signature := PyVal.str (signer_sign mac key r.core_payload_bytes) } = true ∧
    (r.signature = PyVal.noneV → verify_signature mac key r = false) ∧
    (r.signature = PyVal.str s → verify_signature mac key r = true → s2 ≠ s →
      verify_signature mac key { r with signature := PyVal.str s2 } = false) ∧
    (r2.signature = r.signature → verify_signature mac key r = true →
      mac key r2.core_payload_bytes ≠ mac key r.core_payload_bytes →
      verify_signature mac key r2 = false) := by
  refine ⟨?_, ?_, ?_, ?_⟩
  · simp [verify_signature, signer_verify, signer_sign,
      core_payload_bytes_set_signature]
  · intro h
    simp [verify_signature, h]
  · intro hs hv hne
    simp only [verify_signature, hs, signer_verify, signer_sign] at hv
    rw [beq_iff_eq] at hv
    simp only [verify_signature, signer_verify, signer_sign,
      core_payload_bytes_set_signature]
    rw [beq_eq_false_iff_ne, hv]
    exact fun heq => hne heq.symm
  · intro he hv hne
    cases hsig : r.signature with
    | str s3 =>
        simp only [verify_signature, hsig, signer_verify, signer_sign] at hv
        rw [beq_iff_eq] at hv
        rw [verify_signature, he, hsig]
        simp only [signer_verify, signer_sign]
        rw [beq_eq_false_iff_ne]
        intro heq
        exact hne (heq.trans hv.symm)
    | noneV => simp [verify_signature, hsig] at hv
    | int n => simp [verify_signature, hsig] at hv
    | bool b => simp [verify_signature, hsig] at hv
    | listNil => simp [verify_signature, hsig] at hv
    | listCons a b => simp [verify_signature, hsig] at hv
    | dictNil => simp [verify_signature, hsig] at hv
    | dictCons k a b => simp [verify_signature, hsig] at hv

/-- The concrete signature over rGood's core payload. -/
def sGood : String := signer_sign macW "K" rGood.core_payload_bytes

/-- rGood signed and attached. -/
def rSigned : LineageRecord := { rGood with signature := PyVal.str sGood }

/-- rSigned with its author changed and the old signature kept. -/
def rTampered : LineageRecord := { rSigned with author := PyVal.str "mallory" }

/-- Witness for C7: concrete round trip, absent signature, altered
signature and altered payload, via the theorem. -/
theorem signature_roundtrip_witness :
    verify_signature macW "K" rSigned = true ∧
    verify_signature macW "K" rGood = false ∧
    verify_signature macW "K" { rSigned with signature := PyVal.str "evil" } = false ∧
    verify_signature macW "K" rTampered = false := by
  have h := signature_roundtrip macW "K" rGood rTampered sGood "evil"
  have h2 := signature_roundtrip macW "K" rSigned rTampered sGood "evil"
  refine ⟨h.1, h.2.1 rfl, ?_, ?_⟩
  · exact h2.2.2.1 rfl h.1 (by decide)
  · exact h2.2.2.2 rfl h.1 (by decide)

/-! ## Claim theorems: quarantine store -/

theorem mem_optArtifact (nm : String) (o : Option PyVal) :
    (nm ∈ (optArtifact nm o).map Prod.fst) ↔ o.map pyTruthy = some true := by
  cases o with
  | none => simp [optArtifact]
  | some v =>
      by_cases h : pyTruthy v <;> simp [optArtifact, h]

theorem not_mem_optArtifact (x nm : String) (o : Option PyVal) (hne : x ≠ nm) :
    x ∉ (optArtifact nm o).map Prod.fst := by
  cases o with
  | none => simp [optArtifact]
  | some v =>
      by_cases h : pyTruthy v <;> simp [optArtifact, h, hne]

/-- Counterexample for C8: a supplied but empty lineage mapping is falsy,
so its artifact file is omitted even though the input was supplied — the
if-and-only-if over "supplied" fails. -/
theorem save_evidence_bundle_empty_dict_counterexample :
    (some PyVal.dictNil : Option PyVal) ≠ none ∧
    "lineage_record.json" ∉
      ((save_evidence_bundle "q" "T" "doc" "c" "r"
        (some PyVal.dictNil) none none).2.map Prod.fst) ∧
    ((save_evidence_bundle "q" "T" "doc" "c" "r"
        (some PyVal.dictNil) none none).2.map Prod.fst) =
      ["content.txt", "reason.txt"] := by
  refine ⟨by decide, by decide, rfl⟩

/-- Amended C8: the bundle path is quarantine root, UTC timestamp,
underscore, document id with spaces replaced by underscores; the content
and reason files are always written; and each optional artifact is
written if and only if the corresponding input was supplied and truthy —
a supplied empty mapping is treated like an absent input and omitted,
never stored empty. -/
theorem save_evidence_bundle_layout (qdir qts did content reason : String)
    (lr ds md : Option PyVal) :
    (save_evidence_bundle qdir qts did content reason lr ds md).1 =
      qdir ++ "/" ++ qts ++ "_" ++ sanitize_id did ∧
    ("content.txt", PyVal.str content) ∈
      (save_evidence_bundle qdir qts did content reason lr ds md).2 ∧
    ("reason.txt", PyVal.str reason) ∈
      (save_evidence_bundle qdir qts did content reason lr ds md).2 ∧
    ("lineage_record.json" ∈
        (save_evidence_bundle qdir qts did content reason lr ds md).2.map Prod.fst ↔
      lr.map pyTruthy = some true) ∧
    ("detection_scores.json" ∈
        (save_evidence_bundle qdir qts did content reason lr ds md).2.map Prod.fst ↔
      ds.map pyTruthy = some true) ∧
    ("metadata.json" ∈
        (save_evidence_bundle qdir qts did content reason lr ds md).2.map Prod.fst ↔
      md.map pyTruthy = some true) := by
  refine ⟨rfl, by simp [save_evidence_bundle], by simp [save_evidence_bundle], ?_, ?_, ?_⟩
  · simp only [save_evidence_bundle, List.map_append, List.mem_append]
    rw [mem_optArtifact]
    simp [not_mem_optArtifact "lineage_record.json" "detection_scores.json" ds (by decide),
      not_mem_optArtifact "lineage_record.json" "metadata.json" md (by decide)]
  · simp only [save_evidence_bundle, List.map_append, List.mem_append]
    rw [mem_optArtifact]
    simp [not_mem_optArtifact "detection_scores.json" "lineage_record.json" lr (by decide),
      not_mem_optArtifact "detection_scores.json" "metadata.json" md (by decide)]
  · simp only [save_evidence_bundle, List.map_append, List.mem_append]
    rw [mem_optArtifact]
    simp [not_mem_optArtifact "metadata.json" "lineage_record.json" lr (by decide),
      not_mem_optArtifact "metadata.json" "detection_scores.json" ds (by decide)]

/-! ## Claim theorems: lineage normalization -/

theorem dictPairs_ofDict (d : List (String × PyVal)) :
    (PyVal.ofDict d).dictPairs = some d := by
  induction d with
  | nil => rfl
  | cons p t ih =>
      cases p
      simp [PyVal.ofDict, PyVal.dictPairs, ih]

/-- Claim C10: lineage normalization validates field-name shape only — an
actual LineageRecord passes through unchanged; a dict whose keys cover
the required constructor parameters with no unknown key is coerced
regardless of the types of its values; a dict with bad keys, and any
other non-None input, yields normalization failure and hence a
quarantined verdict. -/
theorem normalize_shape_only (r : LineageRecord) (d : List (String × PyVal))
    (v : PyVal) (li : LineageInput) (sha : String → String)
    (mac : String → String → String) (key : String)
    (detect : String → ScanResult) (qdir qts ts did content : String)
    (metadata : Option (List (String × PyVal))) (s0 : AuditLogState) :
    normalize_lineage_record (some (LineageInput.record r)) = some r ∧
    (kwargs_ok d = true →
      normalize_lineage_record (some (LineageInput.raw (PyVal.ofDict d))) =
        some (record_of_dict d)) ∧
    (kwargs_ok d = false →
      normalize_lineage_record (some (LineageInput.raw (PyVal.ofDict d))) = none) ∧
    (v.dictPairs = none → normalize_lineage_record (some (LineageInput.raw v)) = none) ∧
    (normalize_lineage_record (some li) = none →
      (process_document sha mac key detect qdir qts ts did content
        (some li) metadata s0).1.status = "quarantined") := by
  refine ⟨rfl, ?_, ?_, ?_, ?_⟩
  · intro h
    simp [normalize_lineage_record, dictPairs_ofDict, coerce_lineage_dict, h]
  · intro h
    simp [normalize_lineage_record, dictPairs_ofDict, coerce_lineage_dict, h]
  · intro h
    simp [normalize_lineage_record, h]
  · intro h
    simp [process_document, h]

/-- Witness for C10: a key-complete dict with a string-typed version is
accepted; a dict missing required keys fails and quarantines. -/
theorem normalize_shape_only_witness :
    normalize_lineage_record (some (LineageInput.raw (PyVal.ofDict dGood))) =
      some (record_of_dict dGood) ∧
    (record_of_dict dGood).version = PyVal.str "two" ∧
    normalize_lineage_record (some liBad) = none ∧
    (process_document shaW macW "K" detectW "q" "T" "t" "doc" "c"
      (some liBad) none AuditLog.fresh).1.status = "quarantined" := by
  have h1 := normalize_shape_only rGood dGood PyVal.noneV liBad shaW macW "K"
    detectW "q" "T" "t" "doc" "c" none AuditLog.fresh
  have h2 := normalize_shape_only rGood [("document_id", PyVal.str "d")]
    PyVal.noneV liBad shaW macW "K" detectW "q" "T" "t" "doc" "c" none AuditLog.fresh
  exact ⟨h1.2.1 (by decide), rfl, h2.2.2.1 (by decide), h1.2.2.2.2 (by decide)⟩

/-! ## Claim theorems: pipeline -/

theorem write_event_file (sha : String → String) (a : WriteArgs) (s : AuditLogState) :
    (write_event sha a s).file = s.file ++ [entryOf sha a s] := rfl

/-- Counterexample for C6: on a malformed lineage input the audit
sequence does contain an event whose event_type is lineage_fail — the
deserialization-failure event itself carries that event_type. -/
theorem pipeline_malformed_lineage_counterexample :
    ((events_between AuditLog.fresh (process_document shaW macW "K" detectW
        "q" "T" "t" "doc" "c" (some liBad) none AuditLog.fresh).2.1).map
      (fun e => e.event_type)) = ["ingest_start", "lineage_fail"] ∧
    (process_document shaW macW "K" detectW "q" "T" "t" "doc" "c"
      (some liBad) none AuditLog.fresh).1.status = "quarantined" := by
  constructor <;> rfl

/-- Amended C6: when a supplied lineage input cannot be coerced, the call
quarantines at the normalize stage with reason "Invalid lineage record
structure.", no semantic scores; the audit sequence is exactly
ingest_start followed by the deserialization-failure event (which itself
has event_type lineage_fail at stage lineage_deserialization), with no
lineage-verification-stage event; and the result is independent of the
verifier's MAC and key and of the scorer, so neither is consulted. -/
theorem pipeline_malformed_lineage (sha : String → String)
    (mac mac2 : String → String → String) (key key2 : String)
    (detect detect2 : String → ScanResult) (qdir qts ts did content : String)
    (li : LineageInput) (metadata : Option (List (String × PyVal)))
    (s0 : AuditLogState)
    (h : normalize_lineage_record (some li) = none) :
    (process_document sha mac key detect qdir qts ts did content
      (some li) metadata s0).1.status = "quarantined" ∧
    (process_document sha mac key detect qdir qts ts did content
      (some li) metadata s0).1.reason = "Invalid lineage record structure." ∧
    (process_document sha mac key detect qdir qts ts did content
      (some li) metadata s0).1.semantic_scores = none ∧
    (events_between s0 (process_document sha mac key detect qdir qts ts did
      content (some li) metadata s0).2.1).map event_sig =
      [("ingest_start", "start"), ("lineage_fail", "lineage_deserialization")] ∧
    process_document sha mac2 key2 detect2 qdir qts ts did content
      (some li) metadata s0 =
      process_document sha mac key detect qdir qts ts did content
        (some li) metadata s0 := by
  refine ⟨?_, ?_, ?_, ?_, ?_⟩
  · simp [process_document, h]
  · simp [process_document, h]
  · simp [process_document, h]
  · simp only [process_document, h]
    rw [events_between, write_event_file, write_event_file, List.append_assoc,
      list_drop_len_append]
    rfl
  · simp [process_document, h]

/-- Witness for C6: a dict missing required fields, checked via the
theorem. -/
theorem pipeline_malformed_lineage_witness :
    (process_document shaW macW "K" detectW "q" "T" "t" "doc" "c"
      (some liBad) none AuditLog.fresh).1.reason =
      "Invalid lineage record structure." ∧
    (events_between AuditLog.fresh (process_document shaW macW "K" detectW
      "q" "T" "t" "doc" "c" (some liBad) none AuditLog.fresh).2.1).map event_sig =
      [("ingest_start", "start"), ("lineage_fail", "lineage_deserialization")] ∧
    process_document shaW macW "other" detectSusW "q" "T" "t" "doc" "c"
      (some liBad) none AuditLog.fresh =
      process_document shaW macW "K" detectW "q" "T" "t" "doc" "c"
        (some liBad) none AuditLog.fresh := by
  have h := pipeline_malformed_lineage shaW macW macW "K" "other" detectW
    detectSusW "q" "T" "t" "doc" "c" liBad none AuditLog.fresh (by decide)
  exact ⟨h.2.1, h.2.2.2.1, h.2.2.2.2⟩

/-- Counterexample for C5: a run that quarantines at the semantic
terminal issues its QuarantineStore call with reason "Semantic anomaly
detected." while the verdict's reason is "Semantic anomaly." — the two
reason strings differ. -/
theorem pipeline_quarantine_reason_counterexample :
    (process_document shaW macW "K" detectSusW "q" "T" "t" "doc" "c"
      none none AuditLog.fresh).1.status = "quarantined" ∧
    (process_document shaW macW "K" detectSusW "q" "T" "t" "doc" "c"
      none none AuditLog.fresh).1.reason = "Semantic anomaly." ∧
    ((process_document shaW macW "K" detectSusW "q" "T" "t" "doc" "c"
      none none AuditLog.fresh).2.2.map (fun q => q.reason)) =
      ["Semantic anomaly detected."] := by
  refine ⟨rfl, rfl, rfl⟩

/-- Amended C5: every quarantined verdict carries the bundle path of the
single QuarantineStore call of the run, issued for the same document id,
but with a related rather than identical reason: the store call's reason
is "Lineage record deserialization failure." against a verdict reason of
"Invalid lineage record structure." at the normalize terminal, the
verifier's reason prefixed by "Lineage/Integrity failed: " at the verify
terminal, and "Semantic anomaly detected." against "Semantic anomaly."
at the semantic terminal. -/
theorem pipeline_quarantine_reasons (sha : String → String)
    (mac : String → String → String) (key : String)
    (detect : String → ScanResult) (qdir qts ts did content : String)
    (lineage : Option LineageInput) (metadata : Option (List (String × PyVal)))
    (s0 : AuditLogState)
    (h : (process_document sha mac key detect qdir qts ts did content
      lineage metadata s0).1.status = "quarantined") :
    (process_document sha mac key detect qdir qts ts did content
      lineage metadata s0).2.2.length = 1 ∧
    ((process_document sha mac key detect qdir qts ts did content
      lineage metadata s0).2.2.getD 0 dummyCall).document_id = did ∧
    (process_document sha mac key detect qdir qts ts did content
      lineage metadata s0).1.bundle_path = some (bundle_path qdir qts did) ∧
    ((((process_document sha mac key detect qdir qts ts did content
          lineage metadata s0).2.2.getD 0 dummyCall).reason =
        "Lineage record deserialization failure." ∧
      (process_document sha mac key detect qdir qts ts did content
        lineage metadata s0).1.reason = "Invalid lineage record structure.") ∨
     ((process_document sha mac key detect qdir qts ts did content
        lineage metadata s0).2.2.getD 0 dummyCall).reason =
       "Lineage/Integrity failed: " ++ (process_document sha mac key detect
         qdir qts ts did content lineage metadata s0).1.reason ∨
     ((((process_document sha mac key detect qdir qts ts did content
          lineage metadata s0).2.2.getD 0 dummyCall).reason =
        "Semantic anomaly detected.") ∧
      (process_document sha mac key detect qdir qts ts did content
        lineage metadata s0).1.reason = "Semantic anomaly.")) := by
  cases lineage with
  | none =>
      cases hd : (detect content).is_suspicious with
      | true =>
          refine ⟨?_, ?_, ?_, Or.inr (Or.inr ⟨?_, ?_⟩)⟩ <;>
            simp [process_document, process_after_normalize, process_semantic,
              hd, save_evidence_bundle]
      | false =>
          exfalso
          simp [process_document, process_after_normalize, process_semantic,
            hd] at h
  | some li =>
      cases hn : normalize_lineage_record (some li) with
      | none =>
          refine ⟨?_, ?_, ?_, Or.inl ⟨?_, ?_⟩⟩ <;>
            simp [process_document, hn, save_evidence_bundle]
      | some r =>
          cases hv : verify_record sha mac key r content with
          | mk ok rs =>
              cases ok with
              | true =>
                  cases hd : (detect content).is_suspicious with
                  | true =>
                      refine ⟨?_, ?_, ?_, Or.inr (Or.inr ⟨?_, ?_⟩)⟩ <;>
                        simp [process_document, process_after_normalize,
                          process_semantic, hn, hv, hd, save_evidence_bundle]
                  | false =>
                      exfalso
                      simp [process_document, process_after_normalize,
                        process_semantic, hn, hv, hd] at h
              | false =>
                  refine ⟨?_, ?_, ?_, Or.inr (Or.inl ?_)⟩ <;>
                    simp [process_document, process_after_normalize,
                      hn, hv, save_evidence_bundle]

/-- Witness for C5 (amended): a concrete semantic quarantine, via the
theorem. -/
theorem pipeline_quarantine_reasons_witness :
    (process_document shaW macW "K" detectSusW "q" "T" "t" "my doc" "c"
      none none AuditLog.fresh).2.2.length = 1 ∧
    (process_document shaW macW "K" detectSusW "q" "T" "t" "my doc" "c"
      none none AuditLog.fresh).1.bundle_path =
      some (bundle_path "q" "T" "my doc") ∧
    ((process_document shaW macW "K" detectSusW "q" "T" "t" "my doc" "c"
      none none AuditLog.fresh).2.2.getD 0 dummyCall).document_id = "my doc" := by
  have h := pipeline_quarantine_reasons shaW macW "K" detectSusW "q" "T" "t"
    "my doc" "c" none none AuditLog.fresh (by decide)
  exact ⟨h.1, h.2.2.1, h.2.1⟩

theorem event_sig_entryOf (sha : String → String) (a : WriteArgs)
    (s : AuditLogState) : event_sig (entryOf sha a s) = (a.event_type, a.stage) := rfl

/-- Claim C9: with identical inputs and identical collaborator outputs
(the same digest and MAC functions, key, and scorer), two
process_document runs traverse the same stage sequence and return the
same verdict — same status, same reason, same presence of a bundle path,
and same semantic scores — regardless of the ambient audit state, the
wall-clock timestamps, and the quarantine root. -/
theorem pipeline_determinism (sha : String → String)
    (mac : String → String → String) (key : String)
    (detect : String → ScanResult) (did content : String)
    (lineage : Option LineageInput) (metadata : Option (List (String × PyVal)))
    (qdir1 qts1 ts1 : String) (s1 : AuditLogState)
    (qdir2 qts2 ts2 : String) (s2 : AuditLogState) :
    (process_document sha mac key detect qdir1 qts1 ts1 did content
      lineage metadata s1).1.status =
      (process_document sha mac key detect qdir2 qts2 ts2 did content
        lineage metadata s2).1.status ∧
    (process_document sha mac key detect qdir1 qts1 ts1 did content
      lineage metadata s1).1.reason =
      (process_document sha mac key detect qdir2 qts2 ts2 did content
        lineage metadata s2).1.reason ∧
    (process_document sha mac key detect qdir1 qts1 ts1 did content
      lineage metadata s1).1.bundle_path.isSome =
      (process_document sha mac key detect qdir2 qts2 ts2 did content
        lineage metadata s2).1.bundle_path.isSome ∧
    (process_document sha mac key detect qdir1 qts1 ts1 did content
      lineage metadata s1).1.semantic_scores =
      (process_document sha mac key detect qdir2 qts2 ts2 did content
        lineage metadata s2).1.semantic_scores ∧
    (events_between s1 (process_document sha mac key detect qdir1 qts1 ts1
      did content lineage metadata s1).2.1).map event_sig =
      (events_between s2 (process_document sha mac key detect qdir2 qts2 ts2
        did content lineage metadata s2).2.1).map event_sig := by
  cases lineage with
  | none =>
      cases hd : (detect content).is_suspicious <;>
        · refine ⟨?_, ?_, ?_, ?_, ?_⟩ <;>
            simp [process_document, process_after_normalize, process_semantic,
              hd, events_between, write_event_file, List.append_assoc,
              list_drop_len_append, event_sig_entryOf]
  | some li =>
      cases hn : normalize_lineage_record (some li) with
      | none =>
          refine ⟨?_, ?_, ?_, ?_, ?_⟩ <;>
            simp [process_document, hn, events_between, write_event_file,
              List.append_assoc, list_drop_len_append, event_sig_entryOf]
      | some r =>
          cases hv : verify_record sha mac key r content with
          | mk ok rs =>
              cases ok with
              | true =>
                  cases hd : (detect content).is_suspicious <;>
                    · refine ⟨?_, ?_, ?_, ?_, ?_⟩ <;>
                        simp [process_document, process_after_normalize,
                          process_semantic, hn, hv, hd, events_between,
                          write_event_file, List.append_assoc,
                          list_drop_len_append, event_sig_entryOf]
              | false =>
                  refine ⟨?_, ?_, ?_, ?_, ?_⟩ <;>
                    simp [process_document, process_after_normalize, hn, hv,
                      events_between, write_event_file, List.append_assoc,
                      list_drop_len_append, event_sig_entryOf]
